import Mathlib

/-!
Verification of the Sphinx documentation build configuration
(`docs/source/conf.py`) of the PGPainless repository.

The configuration file is a flat Python module evaluated once.  Its only
input is the captured standard output of the external command
`git describe --abbrev=0` (read through `os.popen`), and its result is a
namespace of configuration variables.  We embed evaluation as a pure
function from that captured output string to an association list of
configuration values, together with the list of external effects the
evaluation performs.
-/

namespace PgpainlessDocsConf

/-- Whitespace predicate of Python `str.strip()` with no argument,
restricted to the ASCII whitespace characters (space, tab, newline,
carriage return, vertical tab, form feed). -/
def isPySpace (c : Char) : Bool :=
  c == ' ' || c == '\t' || c == '\n' || c == '\r' || c == '\x0b' || c == '\x0c'

/-- Remove leading and trailing whitespace characters from a character list:
drop from the front, then reverse, drop from the front again, reverse back. -/
def stripChars (l : List Char) : List Char :=
  ((l.dropWhile isPySpace).reverse.dropWhile isPySpace).reverse

/-- Embedding of the Python expression `s.strip()` on strings. -/
def pyStrip (s : String) : String :=
  String.mk (stripChars s.data)

/-- A Python value appearing on the right-hand side of an assignment in
`conf.py`: a string, a list of strings, a dict from strings to strings,
or an integer. -/
inductive ConfigValue where
  | str : String → ConfigValue
  | strList : List String → ConfigValue
  | strMap : List (String × String) → ConfigValue
  | int : Int → ConfigValue
deriving DecidableEq, Repr

/-- External effects that evaluating the module can perform.  The
constructors cover command invocation via `os.popen`, file writes and
environment mutation, so that absence of the latter two is expressible. -/
inductive Effect where
  | popen : String → Effect
  | fileWrite : String → Effect
  | envSet : String → String → Effect
deriving DecidableEq, Repr

/-- The command line passed to `os.popen` on line 13 of `conf.py`. -/
def gitDescribeCmd : String :=
  "git describe --abbrev=0"

/-- Embedding of line 13: `latest_tag = os.popen('git describe --abbrev=0').read().strip()`,
as a function of the captured standard output of the command. -/
def latest_tag (gitOutput : String) : String :=
  pyStrip gitOutput

/-- Embedding of line 14: `release = latest_tag`. -/
def release (gitOutput : String) : String :=
  latest_tag gitOutput

/-- Embedding of line 15: `version = release`. -/
def version (gitOutput : String) : String :=
  release gitOutput

/-- Evaluation of `conf.py` as a function of the captured output of the
version-control command: the pair of the list of external effects
performed (in order) and the resulting module namespace (assignments in
source order).  Every right-hand side is transcribed from the file. -/
def runConf (gitOutput : String) : List Effect × List (String × ConfigValue) :=
  ([Effect.popen gitDescribeCmd],
   [ ("project", ConfigValue.str "PGPainless"),
     ("copyright", ConfigValue.str "2022, Paul Schaub"),
     ("author", ConfigValue.str "Paul Schaub"),
     ("master_doc", ConfigValue.str "index"),
     ("latest_tag", ConfigValue.str (latest_tag gitOutput)),
     ("release", ConfigValue.str (release gitOutput)),
     ("version", ConfigValue.str (version gitOutput)),
     ("myst_substitutions", ConfigValue.strMap [("repo_host", "codeberg.org")]),
     ("extensions", ConfigValue.strList
       ["myst_parser", "sphinxcontrib.mermaid", "sphinx.ext.duration",
        "sphinx.ext.doctest", "sphinx.ext.autodoc", "sphinx.ext.autosummary"]),
     ("source_suffix", ConfigValue.strList [".rst", ".md"]),
     ("myst_enable_extensions", ConfigValue.strList ["colon_fence", "substitution"]),
     ("myst_heading_anchors", ConfigValue.int 3),
     ("templates_path", ConfigValue.strList ["_templates"]),
     ("html_theme", ConfigValue.str "sphinx_rtd_theme"),
     ("latex_show_urls", ConfigValue.str "footnote"),
     ("mermaid_cmd", ConfigValue.str "./node_modules/.bin/mmdc"),
     ("mermaid_output_format", ConfigValue.str "png"),
     ("mermaid_params", ConfigValue.strList
       ["--theme", "default", "--width", "800", "--backgroundColor", "transparent"]) ])

/-- The namespace resulting from evaluating `conf.py` on a given captured
command output. -/
def evalConf (gitOutput : String) : List (String × ConfigValue) :=
  (runConf gitOutput).2

/-- The keys assigned by `conf.py`, in source order. -/
def confKeys : List String :=
  ["project", "copyright", "author", "master_doc", "latest_tag", "release",
   "version", "myst_substitutions", "extensions", "source_suffix",
   "myst_enable_extensions", "myst_heading_anchors", "templates_path",
   "html_theme", "latex_show_urls", "mermaid_cmd", "mermaid_output_format",
   "mermaid_params"]

/-- Keys whose value depends on the version-control command output. -/
def vcKeys : List String :=
  ["latest_tag", "release", "version"]

/-- Test whether a configuration value is a string, a list of strings or a
string-to-string mapping (and not an integer). -/
def ConfigValue.isStrShaped : ConfigValue → Bool
  | ConfigValue.str _ => true
  | ConfigValue.strList _ => true
  | ConfigValue.strMap _ => true
  | ConfigValue.int _ => false

/-- Keys of the externally observable contract named by the specification:
project name (`project`), author (`author`), copyright (`copyright`),
version/release strings (`version`, `release`), extension identifiers
(`extensions`), theme selector (`html_theme`), source file suffixes
(`source_suffix`), path and output settings (`templates_path`,
`mermaid_output_format`), and diagram-renderer invocation parameters
(`mermaid_cmd`, `mermaid_params`). -/
def contractKeys : List String :=
  ["project", "author", "copyright", "version", "release", "extensions",
   "html_theme", "source_suffix", "templates_path", "mermaid_output_format",
   "mermaid_cmd", "mermaid_params"]

/-! ### Helper lemmas about whitespace stripping -/

lemma dropWhile_dropWhile (p : Char → Bool) (l : List Char) :
    (l.dropWhile p).dropWhile p = l.dropWhile p := by
  induction l with
  | nil => rfl
  | cons a t ih =>
    by_cases h : p a
    · simp [List.dropWhile_cons, h, ih]
    · simp [List.dropWhile_cons, h]

lemma length_dropWhile_le (p : Char → Bool) (l : List Char) :
    (l.dropWhile p).length ≤ l.length := by
  induction l with
  | nil => exact Nat.le_refl 0
  | cons a t ih =>
    by_cases h : p a
    · rw [List.dropWhile_cons, if_pos h]
      exact Nat.le_succ_of_le ih
    · rw [List.dropWhile_cons, if_neg h]

lemma dropWhile_append_singleton (p : Char → Bool) (w : List Char) (a : Char) :
    (w ++ [a]).dropWhile p = [] ∨ ∃ w2, (w ++ [a]).dropWhile p = w2 ++ [a] := by
  induction w with
  | nil =>
    by_cases h : p a
    · left; simp [List.dropWhile, h]
    · right; exact ⟨[], by simp [List.dropWhile, h]⟩
  | cons b w ih =>
    by_cases h : p b
    · simpa [List.dropWhile_cons, h] using ih
    · right; exact ⟨b :: w, by simp [List.dropWhile_cons, h]⟩

lemma head_false_of_dropWhile_self (p : Char → Bool) (a : Char) (t : List Char)
    (h : (a :: t).dropWhile p = a :: t) : p a = false := by
  by_cases ha : p a
  · rw [List.dropWhile_cons, if_pos ha] at h
    have hle := length_dropWhile_le p t
    rw [h] at hle
    simp at hle
  · exact Bool.eq_false_iff.mpr ha

/-- Removal of trailing characters satisfying `p`. -/
def rtrimChars (p : Char → Bool) (l : List Char) : List Char :=
  (l.reverse.dropWhile p).reverse

lemma rtrim_idem (p : Char → Bool) (l : List Char) :
    rtrimChars p (rtrimChars p l) = rtrimChars p l := by
  unfold rtrimChars
  rw [List.reverse_reverse, dropWhile_dropWhile]

lemma dropWhile_rtrim (p : Char → Bool) (l : List Char)
    (h : l.dropWhile p = l) : (rtrimChars p l).dropWhile p = rtrimChars p l := by
  cases l with
  | nil => rfl
  | cons a t =>
    have ha : p a = false := head_false_of_dropWhile_self p a t h
    unfold rtrimChars
    rw [List.reverse_cons]
    rcases dropWhile_append_singleton p t.reverse a with h0 | ⟨w2, hw⟩
    · rw [h0]; rfl
    · rw [hw, List.reverse_append]
      simp [List.dropWhile_cons, ha]

lemma stripChars_idem (l : List Char) : stripChars (stripChars l) = stripChars l := by
  have hst : stripChars l = rtrimChars isPySpace (l.dropWhile isPySpace) := rfl
  have h1 : (stripChars l).dropWhile isPySpace = stripChars l := by
    rw [hst]
    exact dropWhile_rtrim isPySpace _ (dropWhile_dropWhile isPySpace l)
  show rtrimChars isPySpace ((stripChars l).dropWhile isPySpace) = stripChars l
  rw [h1, hst, rtrim_idem]

lemma all_takeWhile (p : Char → Bool) (l : List Char) : (l.takeWhile p).all p = true := by
  induction l with
  | nil => rfl
  | cons a t ih =>
    by_cases h : p a
    · simp [List.takeWhile_cons, h, ih]
    · simp [List.takeWhile_cons, h]

lemma stripChars_decomp (l : List Char) :
    ∃ pre suf, l = pre ++ stripChars l ++ suf ∧
      pre.all isPySpace = true ∧ suf.all isPySpace = true := by
  refine ⟨l.takeWhile isPySpace,
    ((l.dropWhile isPySpace).reverse.takeWhile isPySpace).reverse, ?_, ?_, ?_⟩
  · have h2 : l.dropWhile isPySpace =
        stripChars l ++ ((l.dropWhile isPySpace).reverse.takeWhile isPySpace).reverse := by
      conv_lhs => rw [← List.reverse_reverse (l.dropWhile isPySpace),
        ← List.takeWhile_append_dropWhile isPySpace (l.dropWhile isPySpace).reverse]
      rw [List.reverse_append]
      rfl
    conv_lhs => rw [← List.takeWhile_append_dropWhile isPySpace l]
    rw [List.append_assoc, ← h2]
  · exact all_takeWhile isPySpace l
  · rw [List.all_reverse]
    exact all_takeWhile isPySpace _

lemma dropWhile_eq_nil_of_all (p : Char → Bool) (l : List Char) (h : l.all p = true) :
    l.dropWhile p = [] := by
  induction l with
  | nil => rfl
  | cons a t ih =>
    rw [List.all_cons, Bool.and_eq_true] at h
    simp [List.dropWhile_cons, h.1, ih h.2]

lemma stripChars_eq_nil_of_all (l : List Char) (h : l.all isPySpace = true) :
    stripChars l = [] := by
  unfold stripChars
  rw [dropWhile_eq_nil_of_all isPySpace l h]
  rfl

/-! ### Helper lemmas about association-list lookup -/

lemma lookup_append (k : String) (l₁ l₂ : List (String × ConfigValue)) :
    (l₁ ++ l₂).lookup k =
      ((l₁.lookup k).elim (l₂.lookup k) (fun v => some v)) := by
  induction l₁ with
  | nil => simp [List.lookup]
  | cons a t ih =>
    obtain ⟨a, b⟩ := a
    by_cases h : (k == a) = true
    · simp [List.lookup, h]
    · simp only [List.cons_append, List.lookup, h]
      rw [Bool.not_eq_true] at h
      simp [h, ih]

lemma lookup_vc_none (k : String) (s : String)
    (h1 : k ≠ "latest_tag") (h2 : k ≠ "release") (h3 : k ≠ "version") :
    ([("latest_tag", ConfigValue.str (latest_tag s)),
      ("release", ConfigValue.str (release s)),
      ("version", ConfigValue.str (version s))] :
      List (String × ConfigValue)).lookup k = none := by
  have e1 : (k == "latest_tag") = false := beq_eq_false_iff_ne.mpr h1
  have e2 : (k == "release") = false := beq_eq_false_iff_ne.mpr h2
  have e3 : (k == "version") = false := beq_eq_false_iff_ne.mpr h3
  simp [List.lookup, e1, e2, e3]

/-! ### Claim theorems -/

/-- Claim C1: for every output string `s` of the version-control describe
command, evaluation sets `release` to `s` with leading and trailing
whitespace stripped (witnessed by the decomposition of `s` into a
whitespace preamble, the release string and a whitespace tail) and sets
`version` to that same value; both namespace entries hold exactly the
stripped command output. -/
theorem conf_release_version_from_tag (s : String) :
    release s = pyStrip s ∧ version s = release s ∧
    (∃ pre suf, s.data = pre ++ (release s).data ++ suf ∧
      pre.all isPySpace = true ∧ suf.all isPySpace = true) ∧
    (evalConf s).lookup "release" = some (ConfigValue.str (pyStrip s)) ∧
    (evalConf s).lookup "version" = some (ConfigValue.str (pyStrip s)) :=
  ⟨rfl, rfl, stripChars_decomp s.data, rfl, rfl⟩

/-- Claim C2: when the version-control command returns empty output,
evaluation still succeeds and `latest_tag`, `release` and `version` are
all the empty string, including in the resulting namespace. -/
theorem conf_empty_output_empty_version :
    latest_tag "" = "" ∧ release "" = "" ∧ version "" = "" ∧
    (evalConf "").lookup "latest_tag" = some (ConfigValue.str "") ∧
    (evalConf "").lookup "release" = some (ConfigValue.str "") ∧
    (evalConf "").lookup "version" = some (ConfigValue.str "") :=
  ⟨rfl, rfl, rfl, rfl, rfl, rfl⟩

/-- Claim C3: for every captured command output, the effect trace of
evaluating the configuration file is exactly one invocation of
`git describe --abbrev=0` through `os.popen`; in particular it contains
no file write and no environment mutation. -/
theorem conf_single_effect (s : String) :
    (runConf s).1 = [Effect.popen "git describe --abbrev=0"] :=
  rfl

/-- Claim C4: for any two outputs of the version-control command, every
configuration entry other than `latest_tag`, `release` and `version`
has the same value in the two resulting namespaces. -/
theorem conf_static_values_independent (s₁ s₂ k : String)
    (h1 : k ≠ "latest_tag") (h2 : k ≠ "release") (h3 : k ≠ "version") :
    (evalConf s₁).lookup k = (evalConf s₂).lookup k := by
  have hsplit : ∀ s : String, evalConf s =
      ([("project", ConfigValue.str "PGPainless"),
        ("copyright", ConfigValue.str "2022, Paul Schaub"),
        ("author", ConfigValue.str "Paul Schaub"),
        ("master_doc", ConfigValue.str "index")] :
        List (String × ConfigValue)) ++
      ([("latest_tag", ConfigValue.str (latest_tag s)),
        ("release", ConfigValue.str (release s)),
        ("version", ConfigValue.str (version s))] ++
       [("myst_substitutions", ConfigValue.strMap [("repo_host", "codeberg.org")]),
        ("extensions", ConfigValue.strList
          ["myst_parser", "sphinxcontrib.mermaid", "sphinx.ext.duration",
           "sphinx.ext.doctest", "sphinx.ext.autodoc", "sphinx.ext.autosummary"]),
        ("source_suffix", ConfigValue.strList [".rst", ".md"]),
        ("myst_enable_extensions", ConfigValue.strList ["colon_fence", "substitution"]),
        ("myst_heading_anchors", ConfigValue.int 3),
        ("templates_path", ConfigValue.strList ["_templates"]),
        ("html_theme", ConfigValue.str "sphinx_rtd_theme"),
        ("latex_show_urls", ConfigValue.str "footnote"),
        ("mermaid_cmd", ConfigValue.str "./node_modules/.bin/mmdc"),
        ("mermaid_output_format", ConfigValue.str "png"),
        ("mermaid_params", ConfigValue.strList
          ["--theme", "default", "--width", "800", "--backgroundColor", "transparent"])]) :=
    fun s => rfl
  rw [hsplit s₁, hsplit s₂, lookup_append, lookup_append,
    lookup_append, lookup_append, lookup_vc_none k s₁ h1 h2 h3,
    lookup_vc_none k s₂ h1 h2 h3]

/-- Witness for claim C4 at concrete inputs: the key `project` has the same
value for two different command outputs. -/
theorem conf_static_values_independent_witness :
    (evalConf "v1.0").lookup "project" = (evalConf " v2.0\n").lookup "project" :=
  conf_static_values_independent "v1.0" " v2.0\n" "project"
    (by decide) (by decide) (by decide)

/-- Claim C5: after evaluation on any command output, the namespace has a
key for each element of the externally observable contract: project name,
author, copyright, version/release strings, extension identifiers, theme
selector, source file suffixes, path and output settings, and
diagram-renderer invocation parameters. -/
theorem conf_contract_keys_present (s : String) :
    contractKeys.all (fun k => ((evalConf s).map Prod.fst).contains k) = true :=
  rfl

/-- Claim C6: independently of the command output, the configuration keys
hold the literal values of the file: project, author, copyright, theme,
source suffixes, the six extensions in order, the mermaid output format
and the mermaid parameters. -/
theorem conf_literal_values (s : String) :
    (evalConf s).lookup "project" = some (ConfigValue.str "PGPainless") ∧
    (evalConf s).lookup "author" = some (ConfigValue.str "Paul Schaub") ∧
    (evalConf s).lookup "copyright" = some (ConfigValue.str "2022, Paul Schaub") ∧
    (evalConf s).lookup "html_theme" = some (ConfigValue.str "sphinx_rtd_theme") ∧
    (evalConf s).lookup "source_suffix" = some (ConfigValue.strList [".rst", ".md"]) ∧
    (evalConf s).lookup "extensions" = some (ConfigValue.strList
      ["myst_parser", "sphinxcontrib.mermaid", "sphinx.ext.duration",
       "sphinx.ext.doctest", "sphinx.ext.autodoc", "sphinx.ext.autosummary"]) ∧
    (evalConf s).lookup "mermaid_output_format" = some (ConfigValue.str "png") ∧
    (evalConf s).lookup "mermaid_params" = some (ConfigValue.strList
      ["--theme", "default", "--width", "800", "--backgroundColor", "transparent"]) :=
  ⟨rfl, rfl, rfl, rfl, rfl, rfl, rfl, rfl⟩

/-- Counterexample to claim C7 as stated: the value of
`myst_heading_anchors` in the namespace (here at empty command output) is
the integer 3, which is neither a string, nor a list of strings, nor a
string-to-string mapping. -/
theorem conf_value_int_counterexample :
    (evalConf "").lookup "myst_heading_anchors" = some (ConfigValue.int 3) ∧
    ConfigValue.isStrShaped (ConfigValue.int 3) = false ∧
    (evalConf "").all (fun p => p.2.isStrShaped) = false :=
  ⟨rfl, rfl, rfl⟩

/-- Claim C7 (amended): every configuration value the file defines is a
string, a list of strings, or a string-to-string mapping, except the
single integer value 3 of `myst_heading_anchors`; this holds for every
value in the namespace after evaluation, for any command output. -/
theorem conf_values_string_shaped_or_int (s : String) :
    (evalConf s).all
      (fun p => p.2.isStrShaped || (p.1 == "myst_heading_anchors" &&
        p.2 == ConfigValue.int 3)) = true :=
  rfl

/-- Claim C8: for every possible command output, `latest_tag`, `release`
and `version` are equal to one another, as plain values and in the
resulting namespace. -/
theorem conf_version_release_tag_equal (s : String) :
    version s = latest_tag s ∧ release s = latest_tag s ∧
    (evalConf s).lookup "version" = some (ConfigValue.str (latest_tag s)) ∧
    (evalConf s).lookup "release" = some (ConfigValue.str (latest_tag s)) ∧
    (evalConf s).lookup "latest_tag" = some (ConfigValue.str (latest_tag s)) :=
  ⟨rfl, rfl, rfl, rfl, rfl⟩

/-- Claim C9: for every possible command output, the resulting `release`
and `version` strings have no leading or trailing whitespace: stripping
them again is the identity. -/
theorem conf_version_stripped (s : String) :
    pyStrip (release s) = release s ∧ pyStrip (version s) = version s := by
  constructor
  · show String.mk (stripChars (stripChars s.data)) = String.mk (stripChars s.data)
    rw [stripChars_idem]
  · show String.mk (stripChars (stripChars s.data)) = String.mk (stripChars s.data)
    rw [stripChars_idem]

/-- Claim C10: evaluation is total for every captured command output
(modelling an unavailable or failing command as arbitrary, possibly empty,
captured output): every configuration key is assigned and its lookup
succeeds, and when the output carries no tag text (only whitespace) the
only degradation is an empty version string. -/
theorem conf_total_evaluation (s : String) :
    (evalConf s).map Prod.fst = confKeys ∧
    confKeys.all (fun k => ((evalConf s).lookup k).isSome) = true ∧
    (s.data.all isPySpace = true → version s = "") := by
  refine ⟨rfl, rfl, fun h => ?_⟩
  show String.mk (stripChars s.data) = ""
  rw [stripChars_eq_nil_of_all s.data h]

/-- Witness for claim C10 at a concrete whitespace-only command output. -/
theorem conf_total_evaluation_witness :
    (" \n".data.all isPySpace = true) ∧ version " \n" = "" :=
  ⟨by decide, (conf_total_evaluation " \n").2.2 (by decide)⟩

end PgpainlessDocsConf
